import Mathlib

set_option maxRecDepth 100000

/-!
Verification of the favorites store, remote-client request mapping and
presentation-layer logic of `src/app.py` (a Streamlit movie-discovery app).

The embedding is shallow:
* Python strings are `String` / `List Char` (Python `len` and slicing count
  code points, as Lean's `String.length` / `List.take` on `.data` do).
* The favorites file is `Option (List Char)`: `none` models a missing file,
  `some text` models a file holding `text`.
* `json.load` is modelled by a small executable JSON parser (`parseVal`)
  over the fragment the application exercises: `null`, booleans, strings
  with `\" \\ \/ \n \t \r \b \f \uXXXX` escapes, integers, decimal numbers
  without exponents, arrays and objects.  Exponent and surrogate-pair
  forms, accepted by Python's parser, are outside the modelled fragment.
* `json.dump(..., ensure_ascii=False, indent=2)` is modelled by a printer
  for the favorites array (`save_favorites`).  The model prints compactly:
  `indent=2` only inserts inter-token whitespace, which `json.load`
  discards (the parser skips whitespace in the same positions), so the
  loaded value is unaffected.  Control characters inside strings are
  printed as `\u00XX` escapes where Python would use the short forms
  `\n`, `\t`, ... — again the parsed value is identical.
* Python `float` literals (`vote_average`) are modelled syntactically by
  `DecNum`: an optional sign, an integer part, and the list of fraction
  digits, exactly the shape `json` reads and writes for the non-exponent
  floats the app handles.
* Python's `str.isdigit` and `int()` are modelled over a representative
  fragment of the Unicode character data (ASCII, Arabic-Indic and
  Devanagari decimal digits; the super- and subscript digit characters),
  chosen so that the model agrees exactly with CPython on it — including
  the inputs on which `isdigit` accepts a string that `int` then rejects.
* The HTTP layer of `discover_movies` is a function argument
  `http : Request → Json`; the list of issued requests is returned
  explicitly so that "exactly one GET request" is statable.
-/

/-! ## Characters and small helpers -/

def quoteChar : Char := Char.ofNat 34

def lbraceC : Char := Char.ofNat 123

def rbraceC : Char := Char.ofNat 125

def isWsChar (c : Char) : Bool :=
  c.toNat = 32 ∨ c.toNat = 10 ∨ c.toNat = 9 ∨ c.toNat = 13

def isDigitChar (c : Char) : Bool :=
  48 ≤ c.toNat ∧ c.toNat ≤ 57

def digitChar (d : Nat) : Char := Char.ofNat (48 + d)

def charDigitVal (c : Char) : Nat := c.toNat - 48

def hexDigitChar (d : Nat) : Char :=
  if d < 10 then Char.ofNat (48 + d) else Char.ofNat (87 + d)

def hexVal (c : Char) : Option Nat :=
  if 48 ≤ c.toNat ∧ c.toNat ≤ 57 then some (c.toNat - 48)
  else if 97 ≤ c.toNat ∧ c.toNat ≤ 102 then some (c.toNat - 87)
  else if 65 ≤ c.toNat ∧ c.toNat ≤ 70 then some (c.toNat - 55)
  else none

/-! ## JSON values

`DecNum` is the syntactic form of a decimal (float) literal: sign, integer
part, fraction digits. -/

structure DecNum where
  neg : Bool
  ip : Nat
  fr : List Nat
  deriving DecidableEq

inductive Json where
  | jnull : Json
  | jbool : Bool → Json
  | jstr : String → Json
  | jint : Int → Json
  | jdec : DecNum → Json
  | jarr : List Json → Json
  | jobj : List (String × Json) → Json

/-- A well-formed decimal literal: at least one fraction digit, all
fraction entries single digits.  Every literal produced by Python's
`json`/`float` printing has this shape. -/
def DecWf (d : DecNum) : Prop := d.fr ≠ [] ∧ ∀ x ∈ d.fr, x < 10

/-! ## JSON parser (model of `json.load`) -/

def skipWs : List Char → List Char
  | [] => []
  | c :: cs => if isWsChar c then skipWs cs else c :: cs

def stripChars : List Char → List Char → Option (List Char)
  | [], cs => some cs
  | _ :: _, [] => none
  | p :: ps, c :: cs => if c = p then stripChars ps cs else none

def escCharOf (e : Char) : Option Char :=
  if e = quoteChar then some quoteChar
  else if e = '\\' then some '\\'
  else if e = '/' then some '/'
  else if e = 'n' then some (Char.ofNat 10)
  else if e = 't' then some (Char.ofNat 9)
  else if e = 'r' then some (Char.ofNat 13)
  else if e = 'b' then some (Char.ofNat 8)
  else if e = 'f' then some (Char.ofNat 12)
  else none

def parseStrBody : List Char → Option (List Char × List Char)
  | [] => none
  | c :: cs =>
    if c = quoteChar then some ([], cs)
    else if c = '\\' then
      match cs with
      | [] => none
      | e :: cs1 =>
        if e = 'u' then
          match cs1 with
          | h1 :: h2 :: h3 :: h4 :: cs2 =>
            match hexVal h1, hexVal h2, hexVal h3, hexVal h4 with
            | some a, some b, some c2, some d =>
              (parseStrBody cs2).map
                (fun p => (Char.ofNat (((a * 16 + b) * 16 + c2) * 16 + d) :: p.1, p.2))
            | _, _, _, _ => none
          | _ => none
        else
          match escCharOf e with
          | some ec => (parseStrBody cs1).map (fun p => (ec :: p.1, p.2))
          | none => none
    else (parseStrBody cs).map (fun p => (c :: p.1, p.2))

def takeDigits : List Char → List Char × List Char
  | [] => ([], [])
  | c :: cs =>
    if isDigitChar c then
      let p := takeDigits cs
      (c :: p.1, p.2)
    else ([], c :: cs)

def digitsVal (ds : List Char) : Nat :=
  ds.foldl (fun a c => a * 10 + charDigitVal c) 0

def parseNumCore (neg : Bool) (cs : List Char) : Option (Json × List Char) :=
  let p := takeDigits cs
  if p.1.isEmpty then none
  else
    match p.2 with
    | '.' :: r2 =>
      let q := takeDigits r2
      if q.1.isEmpty then none
      else some (Json.jdec ⟨neg, digitsVal p.1, q.1.map charDigitVal⟩, q.2)
    | _ =>
      some (Json.jint (if neg then -(digitsVal p.1 : Int) else (digitsVal p.1 : Int)), p.2)

def parseNum (cs : List Char) : Option (Json × List Char) :=
  match cs with
  | [] => parseNumCore false []
  | c :: cs1 => if c = '-' then parseNumCore true cs1 else parseNumCore false (c :: cs1)

mutual

def parseVal : Nat → List Char → Option (Json × List Char)
  | 0, _ => none
  | fuel + 1, cs0 =>
    match skipWs cs0 with
    | [] => none
    | c :: cs =>
      if c = 'n' then (stripChars ['u', 'l', 'l'] cs).map (fun r => (Json.jnull, r))
      else if c = 't' then (stripChars ['r', 'u', 'e'] cs).map (fun r => (Json.jbool true, r))
      else if c = 'f' then (stripChars ['a', 'l', 's', 'e'] cs).map (fun r => (Json.jbool false, r))
      else if c = quoteChar then
        (parseStrBody cs).map (fun p => (Json.jstr (String.mk p.1), p.2))
      else if c = '[' then
        match skipWs cs with
        | [] => none
        | c2 :: cs2 =>
          if c2 = ']' then some (Json.jarr [], cs2)
          else (parseItems fuel (c2 :: cs2)).map (fun p => (Json.jarr p.1, p.2))
      else if c = lbraceC then
        match skipWs cs with
        | [] => none
        | c2 :: cs2 =>
          if c2 = rbraceC then some (Json.jobj [], cs2)
          else (parseFields fuel (c2 :: cs2)).map (fun p => (Json.jobj p.1, p.2))
      else parseNum (c :: cs)

def parseItems : Nat → List Char → Option (List Json × List Char)
  | 0, _ => none
  | fuel + 1, cs =>
    match parseVal fuel cs with
    | none => none
    | some (v, r1) =>
      match skipWs r1 with
      | [] => none
      | c :: r2 =>
        if c = ',' then (parseItems fuel r2).map (fun p => (v :: p.1, p.2))
        else if c = ']' then some ([v], r2)
        else none

def parseFields : Nat → List Char → Option (List (String × Json) × List Char)
  | 0, _ => none
  | fuel + 1, cs =>
    match skipWs cs with
    | [] => none
    | c :: cs1 =>
      if c = quoteChar then
        match parseStrBody cs1 with
        | none => none
        | some (k, r1) =>
          match skipWs r1 with
          | [] => none
          | c2 :: r2 =>
            if c2 = ':' then
              match parseVal fuel r2 with
              | none => none
              | some (v, r3) =>
                match skipWs r3 with
                | [] => none
                | c3 :: r4 =>
                  if c3 = ',' then
                    (parseFields fuel r4).map (fun p => ((String.mk k, v) :: p.1, p.2))
                  else if c3 = rbraceC then some ([(String.mk k, v)], r4)
                  else none
            else none
      else none

end

/-! ## JSON printing for the favorites array (model of `json.dump`) -/

def natDigitsAux : Nat → Nat → List Char
  | 0, _ => []
  | fuel + 1, n =>
    if n < 10 then [digitChar n] else natDigitsAux fuel (n / 10) ++ [digitChar (n % 10)]

def printNat (n : Nat) : List Char := natDigitsAux (n + 1) n

def printInt (n : Int) : List Char :=
  if n < 0 then '-' :: printNat n.natAbs else printNat n.toNat

def printDec (d : DecNum) : List Char :=
  (if d.neg then ['-'] else []) ++ printNat d.ip ++ '.' :: d.fr.map digitChar

def escapeChar (c : Char) : List Char :=
  if c = quoteChar then ['\\', quoteChar]
  else if c = '\\' then ['\\', '\\']
  else if c.toNat < 32 then
    ['\\', 'u', '0', '0', hexDigitChar (c.toNat / 16), hexDigitChar (c.toNat % 16)]
  else [c]

def printStr (s : String) : List Char :=
  quoteChar :: (s.data.map escapeChar).flatten ++ [quoteChar]

def printFlat : Json → List Char
  | Json.jnull => ['n', 'u', 'l', 'l']
  | Json.jbool true => ['t', 'r', 'u', 'e']
  | Json.jbool false => ['f', 'a', 'l', 's', 'e']
  | Json.jstr s => printStr s
  | Json.jint n => printInt n
  | Json.jdec d => printDec d
  | Json.jarr _ => []
  | Json.jobj _ => []

def printField (k : String) (v : Json) : List Char :=
  printStr k ++ ':' :: printFlat v

def printFlatFields : List (String × Json) → List Char
  | [] => []
  | [(k, v)] => printField k v
  | (k, v) :: rest => printField k v ++ ',' :: printFlatFields rest

/-! ## The data model of `src/app.py` -/

/-- A Movie Summary as consumed by `add_favorite` / `show_movie_card`:
`movie["id"]` is accessed directly (always present), the remaining fields
through `movie.get(...)` and may be absent (`none`, i.e. Python `None` /
missing key). -/
structure Movie where
  id : Int
  title : Option String
  poster_path : Option String
  vote_average : Option DecNum
  release_date : Option String
  deriving DecidableEq

/-- A Favorite Record, the dict built in `add_favorite` (src/app.py line 77):
`id`, `title`, `poster_path`, `vote_average` copied via `.get`, and
`release_date` via `.get("release_date", "")` whose default is `""`. -/
structure FavRecord where
  id : Int
  title : Option String
  poster_path : Option String
  vote_average : Option DecNum
  release_date : String
  deriving DecidableEq

def encodeOptStr : Option String → Json
  | none => Json.jnull
  | some s => Json.jstr s

def encodeOptDec : Option DecNum → Json
  | none => Json.jnull
  | some d => Json.jdec d

/-- The JSON object fields of one stored favorite record, in the order the
dict literal of src/app.py line 77 writes them. -/
def encodeFields (r : FavRecord) : List (String × Json) :=
  [("id", Json.jint r.id), ("title", encodeOptStr r.title),
   ("poster_path", encodeOptStr r.poster_path),
   ("vote_average", encodeOptDec r.vote_average),
   ("release_date", Json.jstr r.release_date)]

def encodeFav (r : FavRecord) : Json := Json.jobj (encodeFields r)

def encodeFavs (l : List FavRecord) : Json := Json.jarr (l.map encodeFav)

def printFavObj (r : FavRecord) : List Char :=
  lbraceC :: printFlatFields (encodeFields r) ++ [rbraceC]

def printFavItems : List FavRecord → List Char
  | [] => []
  | [r] => printFavObj r
  | r :: rest => printFavObj r ++ ',' :: printFavItems rest

def printFavs (l : List FavRecord) : List Char :=
  '[' :: printFavItems l ++ [']']

def decodeOptStr : Json → Option (Option String)
  | Json.jnull => some none
  | Json.jstr s => some (some s)
  | _ => none

def decodeOptDec : Json → Option (Option DecNum)
  | Json.jnull => some none
  | Json.jdec d => some (some d)
  | _ => none

/-- Reading one stored favorite object back into a record (the shape
`tab2` and `add_favorite` rely on when they access `f["id"]`,
`movie["title"]`, ...). -/
def decodeFav (j : Json) : Option FavRecord :=
  match j with
  | Json.jobj fs =>
    match List.lookup "id" fs, List.lookup "title" fs, List.lookup "poster_path" fs,
        List.lookup "vote_average" fs, List.lookup "release_date" fs with
    | some (Json.jint i), some tj, some pj, some vj, some (Json.jstr rd) =>
      match decodeOptStr tj, decodeOptStr pj, decodeOptDec vj with
      | some t, some p, some v => some ⟨i, t, p, v, rd⟩
      | _, _, _ => none
    | _, _, _, _, _ => none
  | _ => none

def decodeFavs (j : Json) : Option (List FavRecord) :=
  match j with
  | Json.jarr xs => xs.mapM decodeFav
  | _ => none

/-! ## Favorites store (src/app.py lines 59-91) -/

inductive StorageError where
  | jsonDecodeError : StorageError
  deriving DecidableEq

/-- `load_favorites` (src/app.py lines 59-64): returns `[]` if the file
does not exist, otherwise `json.load`s it; a file holding invalid JSON
raises `json.JSONDecodeError` (the spec's StorageError).  The fuel
`text.length + 10` is a totality device only: it exceeds the number of
parsing steps possible on `text`. -/
def load_favorites (file : Option (List Char)) : Except StorageError Json :=
  match file with
  | none => Except.ok (Json.jarr [])
  | some text =>
    match parseVal (text.length + 10) text with
    | some (j, rest) =>
      if (skipWs rest).isEmpty then Except.ok j
      else Except.error StorageError.jsonDecodeError
    | none => Except.error StorageError.jsonDecodeError

/-- `save_favorites` (src/app.py lines 67-70): the file text written by
`json.dump(favorites, f, ensure_ascii=False, indent=2)`, modelled up to
inter-token whitespace and choice of control-character escape form. -/
def save_favorites (favorites : List FavRecord) : List Char :=
  printFavs favorites

/-- The record dict built on src/app.py line 77. -/
def fav_record_of (movie : Movie) : FavRecord :=
  { id := movie.id, title := movie.title, poster_path := movie.poster_path,
    vote_average := movie.vote_average, release_date := movie.release_date.getD "" }

/-- `add_favorite` (src/app.py lines 73-78) on the decoded favorites list.
The `Bool` records whether `save_favorites` is called (i.e. whether the
file is rewritten). -/
def add_favorite (movie : Movie) (favorites : List FavRecord) : List FavRecord × Bool :=
  if favorites.any (fun f => f.id == movie.id) then (favorites, false)
  else (favorites ++ [fav_record_of movie], true)

/-- `remove_favorite` (src/app.py lines 81-85): keeps the records whose id
differs, and always rewrites the file. -/
def remove_favorite (movie_id : Int) (favorites : List FavRecord) : List FavRecord × Bool :=
  (favorites.filter (fun f => f.id != movie_id), true)

/-- `is_favorite` (src/app.py lines 88-91). -/
def is_favorite (movie_id : Int) (favorites : List FavRecord) : Bool :=
  favorites.any (fun f => f.id == movie_id)

def favIds (l : List FavRecord) : List Int := l.map FavRecord.id

/-- At most one stored record per id. -/
def uniqueIds (l : List FavRecord) : Prop := (favIds l).Nodup

instance (l : List FavRecord) : Decidable (uniqueIds l) := by
  unfold uniqueIds
  infer_instance

/-! ## Remote catalog client (src/app.py lines 27-43) -/

inductive PVal where
  | pstr : String → PVal
  | pint : Int → PVal
  | pdec : DecNum → PVal
  deriving DecidableEq

structure Request where
  url : String
  params : List (String × PVal)
  deriving DecidableEq

def jsonField (j : Json) (k : String) : Option Json :=
  match j with
  | Json.jobj fs => List.lookup k fs
  | _ => none

/-- The query parameters `discover_movies` sends (src/app.py lines 29-38).
`primary_release_year` is added by `if year:`, i.e. exactly when `year` is
truthy — not `None` and not `0`. -/
def discoverParams (api_key : String) (genre_id : Int) (min_rating : DecNum)
    (year : Option Int) (page : Int) : List (String × PVal) :=
  let base := [("api_key", PVal.pstr api_key), ("language", PVal.pstr "ja"),
    ("with_genres", PVal.pint genre_id), ("vote_average.gte", PVal.pdec min_rating),
    ("sort_by", PVal.pstr "popularity.desc"), ("page", PVal.pint page)]
  match year with
  | none => base
  | some y => if y = 0 then base else base ++ [("primary_release_year", PVal.pint y)]

/-- `discover_movies` (src/app.py lines 27-43).  `http` is the transport;
the returned list is the requests issued (always exactly the one GET to the
discover endpoint), paired with `res.json()["results"]`. -/
def discover_movies (http : Request → Json) (api_key : String) (genre_id : Int)
    (min_rating : DecNum) (year : Option Int) (page : Int) :
    List Request × Option Json :=
  let req : Request :=
    { url := "https://api.themoviedb.org/3" ++ "/discover/movie",
      params := discoverParams api_key genre_id min_rating year page }
  ([req], jsonField (http req) "results")

/-! ## Presentation layer (src/app.py lines 98-199) -/

/-- The decimal-digit value of a character as Python's `int()` accepts it
(Unicode general category Nd), over a representative fragment of the
Unicode tables: ASCII `0`-`9`, the Arabic-Indic digits U+0660-U+0669 and
the Devanagari digits U+0966-U+096F; every other code point is treated as
non-decimal.  On this fragment the model agrees exactly with CPython. -/
def pyCharDecimalVal (c : Char) : Option Nat :=
  if 48 ≤ c.toNat ∧ c.toNat ≤ 57 then some (c.toNat - 48)
  else if 1632 ≤ c.toNat ∧ c.toNat ≤ 1641 then some (c.toNat - 1632)
  else if 2406 ≤ c.toNat ∧ c.toNat ≤ 2415 then some (c.toNat - 2406)
  else none

/-- Python's per-character `str.isdigit` classification
(Numeric_Type=Decimal or Digit): the decimal digits above plus the
digit-but-not-decimal characters of the fragment — the superscript digits
U+00B9, U+00B2, U+00B3, U+2070 and U+2074-U+2079, and the subscript
digits U+2080-U+2089.  Python's `int()` raises ValueError on these, which
is exactly where `str.isdigit` and `int` disagree. -/
def pyCharIsDigit (c : Char) : Bool :=
  (pyCharDecimalVal c).isSome
  || c.toNat = 178 || c.toNat = 179 || c.toNat = 185
  || c.toNat = 8304 || (8308 ≤ c.toNat ∧ c.toNat ≤ 8313)
  || (8320 ≤ c.toNat ∧ c.toNat ≤ 8329)

/-- `year.isdigit()`: non-empty and every character digit-classified. -/
def py_isdigit (s : String) : Bool :=
  !s.isEmpty && s.data.all pyCharIsDigit

/-- `int(s)` on an `isdigit`-classified string: succeeds exactly when
every character is a decimal digit (of any script), returning the base-10
number formed from the digit values; `none` models the ValueError that
`int` raises on digit-classified but non-decimal characters such as
U+00B2 (superscript two). -/
def py_int_of_digits (s : String) : Option Int :=
  match s.data.mapM pyCharDecimalVal with
  | some ds => some ((ds.foldl (fun a d => a * 10 + d) 0 : Nat) : Int)
  | none => none

/-- The ValueError `int()` can raise. -/
inductive PyValueError where
  | valueError : PyValueError
  deriving DecidableEq

/-- `year_value = int(year) if year.isdigit() else None` (src/app.py
line 173): `Except.ok` is the value of the expression; `Except.error`
models the uncaught ValueError raised by `int(year)` when
`year.isdigit()` is true but `year` contains a non-decimal digit. -/
def parse_year (year : String) : Except PyValueError (Option Int) :=
  if py_isdigit year then
    match py_int_of_digits year with
    | some n => Except.ok (some n)
    | none => Except.error PyValueError.valueError
  else Except.ok none

/-- The synopsis expression of `show_movie_card` (src/app.py line 112):
`overview[:120] + "..." if len(overview) > 120 else overview`. -/
def truncate_overview (overview : String) : String :=
  if overview.length > 120 then String.mk (overview.data.take 120) ++ "..."
  else overview

/-- The search-session state (`st.session_state.page` / `.movies`). -/
structure SearchState where
  page : Int
  movies : List Json

/-- A new search (src/app.py lines 170-178): page resets to 1, the list is
replaced by page 1's results.  `fetch p` stands for
`discover_movies(genre_id, min_rating, year_value, page=p)` at the active
filters. -/
def run_search (fetch : Int → List Json) : SearchState :=
  { page := 1, movies := fetch 1 }

/-- The "load more" handler (src/app.py lines 189-199): the page counter
is incremented first, the new page is fetched, and its results are
appended to the accumulated list. -/
def load_more (fetch : Int → List Json) (st : SearchState) : SearchState :=
  { page := st.page + 1, movies := st.movies ++ fetch (st.page + 1) }

/-- Records whose float field has the shape of a printed float literal. -/
def RecordWf (r : FavRecord) : Prop :=
  ∀ d, r.vote_average = some d → DecWf d

/-! ## Sample data for concrete evaluations -/

def sampleMovie : Movie :=
  { id := 7, title := some "Dune", poster_path := some "/d.jpg",
    vote_average := some ⟨false, 7, [5]⟩, release_date := some "2023-05-01" }

def sampleMovie2 : Movie :=
  { id := 9, title := none, poster_path := none, vote_average := none,
    release_date := none }

def sampleFav : FavRecord :=
  { id := 7, title := some "Dune", poster_path := some "/d.jpg",
    vote_average := some ⟨false, 7, [5]⟩, release_date := "2023-05-01" }

def sampleFav2 : FavRecord :=
  { id := -3, title := none, poster_path := none, vote_average := none,
    release_date := "" }

def sampleFavs : List FavRecord := [sampleFav, sampleFav2]

/-! ## Lemmas: characters and digit strings -/

theorem char_ne_of_toNat_ne {c d : Char} (h : c.toNat ≠ d.toNat) : c ≠ d :=
  fun he => h (he ▸ rfl)

theorem digitChar_toNat {d : Nat} (h : d < 10) : (digitChar d).toNat = 48 + d := by
  interval_cases d <;> decide

theorem isDigitChar_digitChar {d : Nat} (h : d < 10) : isDigitChar (digitChar d) = true := by
  interval_cases d <;> decide

theorem charDigitVal_digitChar {d : Nat} (h : d < 10) : charDigitVal (digitChar d) = d := by
  interval_cases d <;> decide

theorem hexVal_hexDigitChar {d : Nat} (h : d < 16) : hexVal (hexDigitChar d) = some d := by
  interval_cases d <;> decide

theorem isDigitChar_bounds {c : Char} (h : isDigitChar c = true) :
    48 ≤ c.toNat ∧ c.toNat ≤ 57 := by
  simpa [isDigitChar] using h

theorem skipWs_cons {c : Char} {cs : List Char} (h : isWsChar c = false) :
    skipWs (c :: cs) = c :: cs := by
  simp [skipWs, h]

theorem stripChars_append (p r : List Char) : stripChars p (p ++ r) = some r := by
  induction p with
  | nil => rfl
  | cons c ps ih => simp [stripChars, ih]

/-- Input positions where a printed number may stop: end of input, or a
character that is neither a digit nor a decimal point. -/
def NumStop : List Char → Prop
  | [] => True
  | c :: _ => isDigitChar c = false ∧ c ≠ '.'

theorem takeDigits_append (a r : List Char) (ha : ∀ c ∈ a, isDigitChar c = true)
    (hr : ∀ c rs, r = c :: rs → isDigitChar c = false) :
    takeDigits (a ++ r) = (a, r) := by
  induction a with
  | nil =>
    cases r with
    | nil => rfl
    | cons c rs => simp [takeDigits, hr c rs rfl]
  | cons c a ih =>
    have hc : isDigitChar c = true := ha c (by simp)
    have ih' := ih (fun x hx => ha x (by simp [hx]))
    simp only [List.cons_append, takeDigits, hc, if_true, List.append_eq, ih']

theorem natDigitsAux_eq (n : Nat) : ∀ f g, n < f → n < g → natDigitsAux f n = natDigitsAux g n := by
  induction n using Nat.strong_induction_on with
  | _ n ih =>
    intro f g hf hg
    match f, g with
    | f + 1, g + 1 =>
      simp only [natDigitsAux]
      by_cases h : n < 10
      · simp [h]
      · have hlt : n / 10 < n := Nat.div_lt_self (by omega) (by omega)
        simp only [h, if_false]
        rw [ih (n / 10) hlt f g (by omega) (by omega)]

theorem printNat_small {n : Nat} (h : n < 10) : printNat n = [digitChar n] := by
  simp [printNat, natDigitsAux, h]

theorem printNat_step {n : Nat} (h : ¬ n < 10) :
    printNat n = printNat (n / 10) ++ [digitChar (n % 10)] := by
  have hlt : n / 10 < n := Nat.div_lt_self (by omega) (by omega)
  have h1 : printNat n =
      if n < 10 then [digitChar n] else natDigitsAux n (n / 10) ++ [digitChar (n % 10)] := rfl
  rw [h1, if_neg h, natDigitsAux_eq (n / 10) n (n / 10 + 1) (by omega) (by omega)]
  rfl

theorem printNat_ne_nil (n : Nat) : printNat n ≠ [] := by
  induction n using Nat.strong_induction_on with
  | _ n ih =>
    by_cases h : n < 10
    · simp [printNat_small h]
    · simp [printNat_step h]

theorem printNat_digits (n : Nat) : ∀ c ∈ printNat n, isDigitChar c = true := by
  induction n using Nat.strong_induction_on with
  | _ n ih =>
    by_cases h : n < 10
    · rw [printNat_small h]
      intro c hc
      simp at hc
      subst hc
      exact isDigitChar_digitChar h
    · rw [printNat_step h]
      intro c hc
      rcases List.mem_append.mp hc with hc | hc
      · exact ih (n / 10) (Nat.div_lt_self (by omega) (by omega)) c hc
      · simp at hc
        subst hc
        exact isDigitChar_digitChar (Nat.mod_lt n (by omega))

theorem digitsVal_printNat_gen (n : Nat) :
    ∀ acc, List.foldl (fun a c => a * 10 + charDigitVal c) acc (printNat n) =
      acc * 10 ^ (printNat n).length + n := by
  induction n using Nat.strong_induction_on with
  | _ n ih =>
    intro acc
    by_cases h : n < 10
    · rw [printNat_small h]
      simp [charDigitVal_digitChar h]
    · rw [printNat_step h]
      rw [List.foldl_append]
      have hlt : n / 10 < n := Nat.div_lt_self (by omega) (by omega)
      rw [ih (n / 10) hlt acc]
      simp only [List.foldl_cons, List.foldl_nil, List.length_append, List.length_singleton]
      rw [charDigitVal_digitChar (Nat.mod_lt n (by omega))]
      rw [pow_succ, ← mul_assoc]
      omega

theorem digitsVal_printNat (n : Nat) : digitsVal (printNat n) = n := by
  have := digitsVal_printNat_gen n 0
  simpa [digitsVal] using this

/-! ## Lemmas: string escaping round-trips through the parser -/

theorem parseStrBody_print (s : List Char) (r : List Char) :
    parseStrBody ((s.map escapeChar).flatten ++ quoteChar :: r) = some (s, r) := by
  induction s with
  | nil =>
    simp only [List.map_nil, List.flatten_nil, List.nil_append]
    rw [parseStrBody.eq_def]
    simp
  | cons c s ih =>
    simp only [List.map_cons, List.flatten_cons, List.append_assoc]
    have d1 : ('\\' : Char) ≠ quoteChar := by decide
    by_cases h1 : c = quoteChar
    · subst h1
      have he : escapeChar quoteChar = ['\\', quoteChar] := by decide
      rw [he]
      have d2 : quoteChar ≠ 'u' := by decide
      simp only [List.cons_append, List.nil_append]
      rw [parseStrBody.eq_def]
      simp [d1, d2, escCharOf, ih]
    · by_cases h2 : c = '\\'
      · subst h2
        have he : escapeChar '\\' = ['\\', '\\'] := by decide
        rw [he]
        have d3 : ('\\' : Char) ≠ 'u' := by decide
        simp only [List.cons_append, List.nil_append]
        rw [parseStrBody.eq_def]
        simp [d1, d3, escCharOf, ih]
      · by_cases h3 : c.toNat < 32
        · have he : escapeChar c =
              ['\\', 'u', '0', '0', hexDigitChar (c.toNat / 16), hexDigitChar (c.toNat % 16)] := by
            simp [escapeChar, h1, h2, h3]
          rw [he]
          have hx0 : hexVal '0' = some 0 := by decide
          have hx1 : hexVal (hexDigitChar (c.toNat / 16)) = some (c.toNat / 16) :=
            hexVal_hexDigitChar (by omega)
          have hx2 : hexVal (hexDigitChar (c.toNat % 16)) = some (c.toNat % 16) :=
            hexVal_hexDigitChar (by omega)
          simp only [List.cons_append, List.nil_append]
          rw [parseStrBody.eq_def]
          simp only [d1, hx0, hx1, hx2, ih]
          have harith : c.toNat / 16 * 16 + c.toNat % 16 = c.toNat := by omega
          simp [harith, Char.ofNat_toNat]
        · have he : escapeChar c = [c] := by simp [escapeChar, h1, h2, h3]
          rw [he]
          simp only [List.cons_append, List.nil_append]
          rw [parseStrBody.eq_def]
          simp [h1, h2, ih]

/-! ## Lemmas: numbers round-trip through the parser -/

/-- Input positions where a printed number may stop: end of input, or a
character that is neither a digit nor a decimal point. -/
theorem numStop_head {c : Char} {rs : List Char} (h : NumStop (c :: rs)) :
    isDigitChar c = false ∧ c ≠ '.' := h

theorem parseNumCore_int (neg : Bool) (ds : List Char) (r : List Char)
    (hds : ds ≠ []) (hdig : ∀ c ∈ ds, isDigitChar c = true) (hr : NumStop r) :
    parseNumCore neg (ds ++ r) =
      some (Json.jint (if neg then -(digitsVal ds : Int) else (digitsVal ds : Int)), r) := by
  have ht : takeDigits (ds ++ r) = (ds, r) := by
    refine takeDigits_append ds r hdig ?_
    intro c rs hcr
    subst hcr
    exact (numStop_head hr).1
  have hne : ds.isEmpty = false := by
    cases ds with
    | nil => exact absurd rfl hds
    | cons a as => rfl
  simp only [parseNumCore, ht, hne, Bool.false_eq_true, if_false]
  cases r with
  | nil => rfl
  | cons c rs =>
    have hcd : c ≠ '.' := (numStop_head hr).2
    split
    · rename_i r2 heq
      injection heq with hh ht2
      exact absurd hh hcd
    · rfl

theorem parseNumCore_dec (neg : Bool) (ip : Nat) (fr : List Nat) (r : List Char)
    (hfr : fr ≠ []) (hlt : ∀ x ∈ fr, x < 10) (hr : NumStop r) :
    parseNumCore neg (printNat ip ++ '.' :: (fr.map digitChar ++ r)) =
      some (Json.jdec ⟨neg, ip, fr⟩, r) := by
  have ht1 : takeDigits (printNat ip ++ '.' :: (fr.map digitChar ++ r)) =
      (printNat ip, '.' :: (fr.map digitChar ++ r)) := by
    refine takeDigits_append _ _ (printNat_digits ip) ?_
    intro c rs hcr
    have hc : c = '.' := by
      have := congrArg List.head? hcr
      simpa using this.symm
    subst hc
    decide
  have ht2 : takeDigits (fr.map digitChar ++ r) = (fr.map digitChar, r) := by
    refine takeDigits_append _ _ ?_ ?_
    · intro c hc
      rcases List.mem_map.mp hc with ⟨d, hd, rfl⟩
      exact isDigitChar_digitChar (hlt d hd)
    · intro c rs hcr
      subst hcr
      exact (numStop_head hr).1
  have hne1 : (printNat ip).isEmpty = false := by
    cases hpn : printNat ip with
    | nil => exact absurd hpn (printNat_ne_nil ip)
    | cons a as => rfl
  have hne2 : (fr.map digitChar).isEmpty = false := by
    cases fr with
    | nil => exact absurd rfl hfr
    | cons a as => rfl
  simp only [parseNumCore, ht1, hne1, Bool.false_eq_true, if_false, ht2, hne2]
  have hmap : (fr.map digitChar).map charDigitVal = fr := by
    rw [List.map_map]
    have hcg : ∀ d ∈ fr, (charDigitVal ∘ digitChar) d = d := by
      intro d hd
      exact charDigitVal_digitChar (hlt d hd)
    rw [List.map_congr_left hcg]
    simp
  simp [hmap, digitsVal_printNat]

/-! ## Lemmas: flat (non-container) JSON values round-trip -/

def LeafWf : Json → Prop
  | Json.jdec d => DecWf d
  | Json.jarr _ => False
  | Json.jobj _ => False
  | _ => True

theorem parseVal_toNum (fuel : Nat) (c : Char) (cs : List Char)
    (h : isDigitChar c = true ∨ c = '-') :
    parseVal (fuel + 1) (c :: cs) = parseNum (c :: cs) := by
  have hb : 45 ≤ c.toNat ∧ c.toNat ≤ 57 := by
    rcases h with h | h
    · have := isDigitChar_bounds h
      omega
    · subst h
      decide
  have hws : isWsChar c = false := by
    simp only [isWsChar]
    simp only [decide_eq_false_iff_not]
    push_neg
    omega
  have h1 : c ≠ 'n' := fun he => absurd (he ▸ hb) (by decide)
  have h2 : c ≠ 't' := fun he => absurd (he ▸ hb) (by decide)
  have h3 : c ≠ 'f' := fun he => absurd (he ▸ hb) (by decide)
  have h4 : c ≠ quoteChar := fun he => absurd (he ▸ hb) (by decide)
  have h5 : c ≠ '[' := fun he => absurd (he ▸ hb) (by decide)
  have h6 : c ≠ lbraceC := fun he => absurd (he ▸ hb) (by decide)
  rw [parseVal, skipWs_cons hws]
  simp [h1, h2, h3, h4, h5, h6]

theorem parseVal_leaf (fuel : Nat) (v : Json) (r : List Char)
    (hv : LeafWf v) (hr : NumStop r) :
    parseVal (fuel + 1) (printFlat v ++ r) = some (v, r) := by
  cases v with
  | jnull =>
    have hstrip : stripChars ['u', 'l', 'l'] ('u' :: 'l' :: 'l' :: r) = some r :=
      stripChars_append ['u', 'l', 'l'] r
    simp only [printFlat, List.cons_append, List.nil_append]
    rw [parseVal, skipWs_cons (by decide)]
    simp [hstrip]
  | jbool b =>
    cases b with
    | true =>
      have hstrip : stripChars ['r', 'u', 'e'] ('r' :: 'u' :: 'e' :: r) = some r :=
        stripChars_append ['r', 'u', 'e'] r
      simp only [printFlat, List.cons_append, List.nil_append]
      rw [parseVal, skipWs_cons (by decide)]
      simp [hstrip, (by decide : ('t' : Char) ≠ 'n')]
    | false =>
      have hstrip : stripChars ['a', 'l', 's', 'e'] ('a' :: 'l' :: 's' :: 'e' :: r) = some r :=
        stripChars_append ['a', 'l', 's', 'e'] r
      simp only [printFlat, List.cons_append, List.nil_append]
      rw [parseVal, skipWs_cons (by decide)]
      simp [hstrip, (by decide : ('f' : Char) ≠ 'n'), (by decide : ('f' : Char) ≠ 't')]
  | jstr s =>
    simp only [printFlat, printStr, List.cons_append, List.append_assoc, List.singleton_append]
    rw [parseVal, skipWs_cons (by decide)]
    simp [(by decide : quoteChar ≠ 'n'), (by decide : quoteChar ≠ 't'),
      (by decide : quoteChar ≠ 'f'), parseStrBody_print s.data r]
  | jint n =>
    by_cases hn : n < 0
    · simp only [printFlat, printInt, if_pos hn, List.cons_append]
      rw [parseVal_toNum fuel '-' _ (Or.inr rfl)]
      rw [parseNum, if_pos rfl]
      rw [parseNumCore_int true (printNat n.natAbs) r (printNat_ne_nil _) (printNat_digits _) hr]
      have hval : -((digitsVal (printNat n.natAbs) : Nat) : Int) = n := by
        rw [digitsVal_printNat]
        omega
      simp [hval]
    · rcases hpn : printNat n.toNat with _ | ⟨c, cs⟩
      · exact absurd hpn (printNat_ne_nil _)
      · have hdig : ∀ x ∈ c :: cs, isDigitChar x = true := by
          rw [← hpn]
          exact printNat_digits _
        have hc : isDigitChar c = true := hdig c (List.mem_cons_self c cs)
        simp only [printFlat, printInt, if_neg hn, hpn, List.cons_append]
        rw [parseVal_toNum fuel c _ (Or.inl hc)]
        have hcm : c ≠ '-' := by
          have hbnd := isDigitChar_bounds hc
          exact fun he => absurd (he ▸ hbnd) (by decide)
        rw [parseNum, if_neg hcm]
        rw [show c :: (cs ++ r) = (c :: cs) ++ r from rfl]
        rw [parseNumCore_int false (c :: cs) r (by simp) hdig hr]
        have hval : ((digitsVal (c :: cs) : Nat) : Int) = n := by
          rw [← hpn, digitsVal_printNat]
          omega
        simp [hval]
  | jdec d =>
    obtain ⟨hfr, hlt⟩ := hv
    cases hdneg : d.neg with
    | false =>
      have hpd : printFlat (Json.jdec d) ++ r =
          printNat d.ip ++ '.' :: (d.fr.map digitChar ++ r) := by
        simp [printFlat, printDec, hdneg, List.append_assoc]
      rw [hpd]
      rcases hpn : printNat d.ip with _ | ⟨c, cs⟩
      · exact absurd hpn (printNat_ne_nil _)
      · have hc : isDigitChar c = true := by
          have hd := printNat_digits d.ip
          rw [hpn] at hd
          exact hd c (List.mem_cons_self c cs)
        simp only [List.cons_append]
        rw [parseVal_toNum fuel c _ (Or.inl hc)]
        have hcm : c ≠ '-' := by
          have hbnd := isDigitChar_bounds hc
          exact fun he => absurd (he ▸ hbnd) (by decide)
        rw [parseNum, if_neg hcm]
        rw [show c :: (cs ++ '.' :: (d.fr.map digitChar ++ r)) =
          (c :: cs) ++ '.' :: (d.fr.map digitChar ++ r) from rfl]
        rw [← hpn]
        rw [parseNumCore_dec false d.ip d.fr r hfr hlt hr]
        rw [show (⟨false, d.ip, d.fr⟩ : DecNum) = d from by rw [← hdneg]]
    | true =>
      have hpd : printFlat (Json.jdec d) ++ r =
          '-' :: (printNat d.ip ++ '.' :: (d.fr.map digitChar ++ r)) := by
        simp [printFlat, printDec, hdneg, List.append_assoc]
      rw [hpd]
      rw [parseVal_toNum fuel '-' _ (Or.inr rfl)]
      rw [parseNum, if_pos rfl]
      rw [parseNumCore_dec true d.ip d.fr r hfr hlt hr]
      rw [show (⟨true, d.ip, d.fr⟩ : DecNum) = d from by rw [← hdneg]]
  | jarr xs => exact hv.elim
  | jobj fs => exact hv.elim

/-! ## Lemmas: objects and arrays of flat values round-trip -/

theorem parseFields_field (fuel : Nat) (hf : 1 ≤ fuel) (k : String) (v : Json) (c3 : Char)
    (rest : List Char) (hv : LeafWf v) (h1 : isDigitChar c3 = false) (h2 : c3 ≠ '.')
    (h3 : isWsChar c3 = false) :
    parseFields (fuel + 1) (printField k v ++ c3 :: rest) =
      if c3 = ',' then (parseFields fuel rest).map (fun p => ((k, v) :: p.1, p.2))
      else if c3 = rbraceC then some ([(k, v)], rest)
      else none := by
  obtain ⟨f, rfl⟩ : ∃ f, fuel = f + 1 := ⟨fuel - 1, by omega⟩
  rw [show printField k v ++ c3 :: rest =
      quoteChar :: ((k.data.map escapeChar).flatten ++
        quoteChar :: (':' :: (printFlat v ++ c3 :: rest))) from by
    simp [printField, printStr, List.append_assoc]]
  rw [parseFields, skipWs_cons (by decide)]
  have hval : parseVal (f + 1) (printFlat v ++ c3 :: rest) = some (v, c3 :: rest) :=
    parseVal_leaf f v (c3 :: rest) hv ⟨h1, h2⟩
  have hmk : String.mk k.data = k := rfl
  simp only [parseStrBody_print k.data, skipWs_cons (c := ':') (by decide),
    skipWs_cons (c := c3) h3, hval, hmk]
  simp

def FieldsWfFlat (fs : List (String × Json)) : Prop :=
  fs ≠ [] ∧ ∀ kv ∈ fs, LeafWf kv.2

theorem parseFields_print (fs : List (String × Json)) : ∀ (fuel : Nat) (r : List Char),
    FieldsWfFlat fs → fs.length + 1 ≤ fuel →
    parseFields fuel (printFlatFields fs ++ rbraceC :: r) = some (fs, r) := by
  induction fs with
  | nil =>
    intro fuel r hwf _
    exact absurd rfl hwf.1
  | cons kv rest ih =>
    intro fuel r hwf hfuel
    obtain ⟨k, v⟩ := kv
    obtain ⟨f, rfl⟩ : ∃ f, fuel = f + 1 := ⟨fuel - 1, by omega⟩
    have hf : 1 ≤ f := by
      simp only [List.length_cons] at hfuel
      omega
    cases rest with
    | nil =>
      rw [show printFlatFields [(k, v)] = printField k v from rfl]
      rw [parseFields_field f hf k v rbraceC r (hwf.2 (k, v) (by simp)) (by decide) (by decide)
        (by decide)]
      rw [if_neg (by decide), if_pos rfl]
    | cons kv2 rest2 =>
      rw [show printFlatFields ((k, v) :: kv2 :: rest2) =
        printField k v ++ ',' :: printFlatFields (kv2 :: rest2) from rfl]
      simp only [List.append_assoc, List.cons_append]
      rw [parseFields_field f hf k v ',' _ (hwf.2 (k, v) (by simp)) (by decide) (by decide)
        (by decide)]
      rw [if_pos rfl]
      rw [ih f r ⟨by simp, fun kv h => hwf.2 kv (by simp [h])⟩
        (by simp only [List.length_cons] at hfuel ⊢; omega)]
      rfl

theorem encodeFields_wf (rec : FavRecord) (h : RecordWf rec) :
    FieldsWfFlat (encodeFields rec) := by
  constructor
  · simp [encodeFields]
  · intro kv hkv
    simp only [encodeFields, List.mem_cons, List.not_mem_nil, or_false] at hkv
    rcases hkv with rfl | rfl | rfl | rfl | rfl
    · trivial
    · cases rec.title <;> simp [encodeOptStr, LeafWf]
    · cases rec.poster_path <;> simp [encodeOptStr, LeafWf]
    · cases hva : rec.vote_average with
      | none => simp [encodeOptDec, LeafWf]
      | some d =>
        simp only [encodeOptDec]
        exact h d hva
    · trivial


theorem parseVal_objHead (fuel : Nat) (cs : List Char) :
    parseVal (fuel + 1) (lbraceC :: cs) =
      (match skipWs cs with
      | [] => none
      | c2 :: cs2 =>
        if c2 = rbraceC then some (Json.jobj [], cs2)
        else (parseFields fuel (c2 :: cs2)).map (fun p => (Json.jobj p.1, p.2))) := by
  rw [parseVal, skipWs_cons (by decide)]
  rfl

theorem parseVal_arrHead (fuel : Nat) (cs : List Char) :
    parseVal (fuel + 1) ('[' :: cs) =
      (match skipWs cs with
      | [] => none
      | c2 :: cs2 =>
        if c2 = ']' then some (Json.jarr [], cs2)
        else (parseItems fuel (c2 :: cs2)).map (fun p => (Json.jarr p.1, p.2))) := by
  rw [parseVal, skipWs_cons (by decide)]
  rfl

theorem parseVal_printFavObj (fuel : Nat) (rec : FavRecord) (r : List Char)
    (h : RecordWf rec) (hfuel : 7 ≤ fuel) :
    parseVal (fuel + 1) (printFavObj rec ++ r) = some (encodeFav rec, r) := by
  rw [show printFavObj rec ++ r =
      lbraceC :: (printFlatFields (encodeFields rec) ++ rbraceC :: r) from by
    simp [printFavObj, List.append_assoc]]
  rw [parseVal_objHead]
  have hhead : ∃ T, printFlatFields (encodeFields rec) = quoteChar :: T :=
    ⟨_, rfl⟩
  obtain ⟨T, hT⟩ := hhead
  have hcons : printFlatFields (encodeFields rec) ++ rbraceC :: r =
      quoteChar :: (T ++ rbraceC :: r) := by
    rw [hT]
    rfl
  rw [hcons, skipWs_cons (by decide)]
  simp only [(by decide : quoteChar ≠ rbraceC), if_false, ite_false]
  rw [← hcons]
  rw [parseFields_print (encodeFields rec) fuel r (encodeFields_wf rec h)
    (by simp [encodeFields]; omega)]
  simp [encodeFav]

theorem parseItems_step (fuel : Nat) (v : Json) (r1 cs : List Char)
    (hv : parseVal fuel cs = some (v, r1)) :
    parseItems (fuel + 1) cs =
      (match skipWs r1 with
      | [] => none
      | c :: r2 =>
        if c = ',' then (parseItems fuel r2).map (fun p => (v :: p.1, p.2))
        else if c = ']' then some ([v], r2)
        else none) := by
  rw [parseItems, hv]

theorem parseItems_printFavItems (l : List FavRecord) : ∀ (fuel : Nat) (r : List Char),
    l ≠ [] → (∀ rec ∈ l, RecordWf rec) → l.length + 8 ≤ fuel →
    parseItems fuel (printFavItems l ++ ']' :: r) = some (l.map encodeFav, r) := by
  induction l with
  | nil =>
    intro _ _ hne _ _
    exact absurd rfl hne
  | cons a rest ih =>
    intro fuel r _ hwf hfuel
    obtain ⟨f, rfl⟩ : ∃ f, fuel = f + 1 := ⟨fuel - 1, by omega⟩
    obtain ⟨f', rfl⟩ : ∃ f', f = f' + 1 := ⟨f - 1, by omega⟩
    cases rest with
    | nil =>
      rw [show printFavItems [a] = printFavObj a from rfl]
      rw [parseItems_step (f' + 1) (encodeFav a) (']' :: r) _
        (parseVal_printFavObj f' a (']' :: r) (hwf a (by simp))
          (by simp only [List.length_cons] at hfuel; omega))]
      rw [skipWs_cons (by decide)]
      simp [(by decide : (']' : Char) ≠ ',')]
    | cons b rest2 =>
      rw [show printFavItems (a :: b :: rest2) =
        printFavObj a ++ ',' :: printFavItems (b :: rest2) from rfl]
      simp only [List.append_assoc, List.cons_append]
      rw [parseItems_step (f' + 1) (encodeFav a)
        (',' :: (printFavItems (b :: rest2) ++ ']' :: r)) _
        (parseVal_printFavObj f' a (',' :: (printFavItems (b :: rest2) ++ ']' :: r))
          (hwf a (by simp)) (by simp only [List.length_cons] at hfuel; omega))]
      rw [skipWs_cons (by decide)]
      simp only [if_pos rfl]
      rw [ih (f' + 1) r (by simp) (fun rec hr2 => hwf rec (by simp [hr2]))
        (by simp only [List.length_cons] at hfuel ⊢; omega)]
      rfl

theorem printFavObj_length_pos (a : FavRecord) : 1 ≤ (printFavObj a).length := by
  simp [printFavObj]

theorem printFavItems_length_ge (l : List FavRecord) : l.length ≤ (printFavItems l).length := by
  induction l with
  | nil => simp [printFavItems]
  | cons a rest ih =>
    cases rest with
    | nil => simpa [printFavItems] using printFavObj_length_pos a
    | cons b r2 =>
      rw [show printFavItems (a :: b :: r2) =
        printFavObj a ++ ',' :: printFavItems (b :: r2) from rfl]
      have h1 := printFavObj_length_pos a
      have h2 := ih
      simp only [List.length_cons, List.length_append] at h2 ⊢
      omega

theorem printFavItems_cons_head (a : FavRecord) (rest : List FavRecord) :
    ∃ T, printFavItems (a :: rest) = lbraceC :: T := by
  cases rest with
  | nil => exact ⟨_, rfl⟩
  | cons b r2 => exact ⟨_, rfl⟩

theorem load_favorites_save (l : List FavRecord) (h : ∀ rec ∈ l, RecordWf rec) :
    load_favorites (some (save_favorites l)) = Except.ok (encodeFavs l) := by
  cases l with
  | nil => rfl
  | cons a rest =>
    rw [show save_favorites (a :: rest) = '[' :: (printFavItems (a :: rest) ++ [']']) from rfl]
    rw [load_favorites]
    have hlen : ('[' :: (printFavItems (a :: rest) ++ [']'])).length + 10 =
        ((printFavItems (a :: rest)).length + 11) + 1 := by
      simp
    rw [hlen, parseVal_arrHead]
    obtain ⟨T, hT⟩ := printFavItems_cons_head a rest
    have hcons : printFavItems (a :: rest) ++ [']'] = lbraceC :: (T ++ [']']) := by
      rw [hT]
      rfl
    rw [hcons, skipWs_cons (by decide)]
    simp only [(by decide : lbraceC ≠ ']'), if_false, ite_false]
    rw [← hcons]
    rw [show printFavItems (a :: rest) ++ [']'] = printFavItems (a :: rest) ++ ']' :: [] from rfl]
    rw [parseItems_printFavItems (a :: rest) ((printFavItems (a :: rest)).length + 11) []
      (by simp) h
      (by have := printFavItems_length_ge (a :: rest); simp only [List.length_cons] at this ⊢; omega)]
    rfl

/-! ## Lemmas: decoding inverts encoding -/

theorem decodeFav_encodeFav (r : FavRecord) : decodeFav (encodeFav r) = some r := by
  rcases r with ⟨i, t, p, v, rd⟩
  cases t <;> cases p <;> cases v <;> rfl

theorem decodeFavs_encodeFavs (l : List FavRecord) : decodeFavs (encodeFavs l) = some l := by
  induction l with
  | nil => rfl
  | cons a rest ih =>
    have ih' : (rest.map encodeFav).mapM decodeFav = some rest := ih
    simp only [encodeFavs, decodeFavs, List.map_cons, List.mapM_cons, ih',
      decodeFav_encodeFav a]
    rfl

/-! ## Lemmas: the favorites-store list algebra -/

theorem any_id_iff (favorites : List FavRecord) (i : Int) :
    favorites.any (fun f => f.id == i) = true ↔ i ∈ favIds favorites := by
  simp [favIds, List.any_eq_true, List.mem_map]

theorem add_favorite_mem (movie : Movie) (favorites : List FavRecord) :
    (add_favorite movie favorites).1.any (fun f => f.id == movie.id) = true := by
  by_cases hmem : favorites.any (fun f => f.id == movie.id) = true
  · simp [add_favorite, hmem]
  · simp only [add_favorite, hmem, Bool.false_eq_true, if_false]
    simp [List.any_append, fav_record_of]

/-- C1: if a record with the movie's id is already stored, `add_favorite`
returns the list unchanged and does not rewrite the file; running
`add_favorite` twice with the same movie is the same as running it once
(the second call never writes); after an add the stored list holds exactly
one record with that id (given the uniqueness invariant), and the length
is unchanged by an add whose id was already present. -/
theorem c1_add_idempotent (movie : Movie) (favorites : List FavRecord)
    (h : uniqueIds favorites) :
    add_favorite movie (add_favorite movie favorites).1 = ((add_favorite movie favorites).1, false)
    ∧ ((∃ f ∈ favorites, f.id = movie.id) → add_favorite movie favorites = (favorites, false))
    ∧ (favIds (add_favorite movie favorites).1).count movie.id = 1
    ∧ ((∃ f ∈ favorites, f.id = movie.id) →
        (add_favorite movie favorites).1.length = favorites.length) := by
  have hsecond : add_favorite movie (add_favorite movie favorites).1 =
      ((add_favorite movie favorites).1, false) := by
    rw [add_favorite]
    simp [add_favorite_mem movie favorites]
  by_cases hmem : favorites.any (fun f => f.id == movie.id) = true
  · have hadd : add_favorite movie favorites = (favorites, false) := by
      simp [add_favorite, hmem]
    have hin : movie.id ∈ favIds favorites := (any_id_iff favorites movie.id).mp hmem
    refine ⟨hsecond, fun _ => hadd, ?_, fun _ => by rw [hadd]⟩
    rw [hadd]
    exact List.count_eq_one_of_mem h hin
  · have hnotin : movie.id ∉ favIds favorites := fun hin =>
      hmem ((any_id_iff favorites movie.id).mpr hin)
    have hadd : add_favorite movie favorites =
        (favorites ++ [fav_record_of movie], true) := by
      simp [add_favorite, hmem]
    have hnoex : ¬ ∃ f ∈ favorites, f.id = movie.id := by
      rintro ⟨f, hf, he⟩
      exact hnotin (List.mem_map.mpr ⟨f, hf, he⟩)
    refine ⟨hsecond, fun hex => absurd hex hnoex, ?_, fun hex => absurd hex hnoex⟩
    rw [hadd]
    have hids : favIds (favorites ++ [fav_record_of movie]) =
        favIds favorites ++ [movie.id] := by
      simp [favIds, fav_record_of]
    rw [hids, List.count_append]
    rw [List.count_eq_zero.mpr hnotin]
    simp

/-- C2: both store mutations preserve the at-most-one-record-per-id
invariant, and the record appended by `add_favorite` copies `id`, `title`,
`poster_path` and `vote_average` verbatim from the movie summary, and
`release_date` with `""` substituted when the summary lacks it. -/
theorem c2_store_invariant (movie : Movie) (movie_id : Int) (favorites : List FavRecord)
    (h : uniqueIds favorites) :
    uniqueIds (add_favorite movie favorites).1
    ∧ uniqueIds (remove_favorite movie_id favorites).1
    ∧ ∀ r ∈ (add_favorite movie favorites).1, r ∉ favorites →
        r.id = movie.id ∧ r.title = movie.title ∧ r.poster_path = movie.poster_path
        ∧ r.vote_average = movie.vote_average ∧ r.release_date = movie.release_date.getD "" := by
  refine ⟨?_, ?_, ?_⟩
  · by_cases hmem : favorites.any (fun f => f.id == movie.id) = true
    · simpa [add_favorite, hmem] using h
    · have hnotin : movie.id ∉ favIds favorites := fun hin =>
        hmem ((any_id_iff favorites movie.id).mpr hin)
      simp only [add_favorite, hmem, Bool.false_eq_true, if_false]
      unfold uniqueIds favIds at h ⊢
      rw [List.map_append]
      refine List.Nodup.append h (by simp) ?_
      intro a ha hb
      simp only [fav_record_of, List.map_cons, List.map_nil, List.mem_singleton] at hb
      subst hb
      exact hnotin ha
  · unfold uniqueIds
    refine List.Nodup.sublist ?_ h
    exact List.Sublist.map FavRecord.id (List.filter_sublist favorites)
  · intro r hr hnot
    by_cases hmem : favorites.any (fun f => f.id == movie.id) = true
    · simp only [add_favorite, hmem, if_true] at hr
      exact absurd hr hnot
    · simp only [add_favorite, hmem, Bool.false_eq_true, if_false] at hr
      rcases List.mem_append.mp hr with hr | hr
      · exact absurd hr hnot
      · have : r = fav_record_of movie := by simpa using hr
        subst this
        exact ⟨rfl, rfl, rfl, rfl, rfl⟩

/-- C4: `remove_favorite` keeps exactly the records whose id differs from
the requested id, in their original order (a sublist of the input), always
rewrites the file, and is a no-op on the stored set when the id is absent;
record multiplicities of untouched records are preserved. -/
theorem c4_remove_semantics (movie_id : Int) (favorites : List FavRecord) :
    (remove_favorite movie_id favorites).1 = favorites.filter (fun f => f.id != movie_id)
    ∧ (remove_favorite movie_id favorites).2 = true
    ∧ List.Sublist (remove_favorite movie_id favorites).1 favorites
    ∧ (∀ f, f ∈ (remove_favorite movie_id favorites).1 ↔ f ∈ favorites ∧ f.id ≠ movie_id)
    ∧ ((∀ f ∈ favorites, f.id ≠ movie_id) → (remove_favorite movie_id favorites).1 = favorites)
    ∧ (∀ f : FavRecord, f.id ≠ movie_id →
        (remove_favorite movie_id favorites).1.count f = favorites.count f)
    ∧ (∀ f : FavRecord, f.id = movie_id → f ∉ (remove_favorite movie_id favorites).1) := by
  refine ⟨rfl, rfl, List.filter_sublist favorites, ?_, ?_, ?_, ?_⟩
  · intro f
    simp [remove_favorite, List.mem_filter]
  · intro hall
    rw [remove_favorite]
    simp only []
    rw [List.filter_eq_self.mpr]
    intro f hf
    simpa using hall f hf
  · intro f hf
    rw [remove_favorite]
    simp only []
    rw [List.count_filter]
    simp [hf]
  · intro f hf hmem
    have := (List.mem_filter.mp hmem).2
    simp [hf] at this

/-! ## Claim theorems: round-trip, parsing, UI layer, remote client -/

/-- C3: saving any favorites list and loading the file back yields exactly
the saved JSON array (so the loaded sequence equals, field for field and
in order, what was in memory), and reading the array back as records
recovers the original list. -/
theorem c3_save_load_roundtrip (favorites : List FavRecord)
    (h : ∀ r ∈ favorites, RecordWf r) :
    load_favorites (some (save_favorites favorites)) = Except.ok (encodeFavs favorites)
    ∧ decodeFavs (encodeFavs favorites) = some favorites :=
  ⟨load_favorites_save favorites h, decodeFavs_encodeFavs favorites⟩

/-- C5: the claim is refuted by the code.  The superscript-two input
(U+00B2) is classified as a digit by `str.isdigit`, so the guard passes
and the handler evaluates `int(year)`, which raises an uncaught
ValueError — an input string does cause a thrown error.  On decimal-digit
strings and on non-digit strings the expression behaves as the claim
says: `"2023"` yields 2023, `"abc"` and `""` yield None (and the
Arabic-Indic digit string U+0662 yields 2, where an ASCII reading of
"digit string" would predict no filter). -/
theorem c5_year_parse :
    parse_year "²" = Except.error PyValueError.valueError
    ∧ py_isdigit "²" = true
    ∧ parse_year "٢" = Except.ok (some 2)
    ∧ parse_year "2023" = Except.ok (some 2023)
    ∧ parse_year "abc" = Except.ok none
    ∧ parse_year "" = Except.ok none :=
  ⟨rfl, by decide, rfl, rfl, rfl, rfl⟩

/-- C6: `load_favorites` returns the empty array when the file is absent,
the parsed JSON value when the file holds valid JSON (illustrated on
`"[]"`), and a StorageError when the file text is not valid JSON
(illustrated on `"{"` and `"no"`). -/
theorem c6_load_boundary (text : List Char) (j : Json) (rest : List Char) :
    load_favorites none = Except.ok (Json.jarr [])
    ∧ (parseVal (text.length + 10) text = some (j, rest) → (skipWs rest).isEmpty = true →
        load_favorites (some text) = Except.ok j)
    ∧ (parseVal (text.length + 10) text = none →
        load_favorites (some text) = Except.error StorageError.jsonDecodeError)
    ∧ load_favorites (some ('[' :: ']' :: [])) = Except.ok (Json.jarr [])
    ∧ load_favorites (some (lbraceC :: [])) = Except.error StorageError.jsonDecodeError
    ∧ load_favorites (some ('n' :: 'o' :: [])) = Except.error StorageError.jsonDecodeError := by
  refine ⟨rfl, ?_, ?_, rfl, rfl, rfl⟩
  · intro h1 h2
    simp [load_favorites, h1, h2]
  · intro h1
    simp [load_favorites, h1]

/-- C8: the rendered synopsis equals the overview when it has at most 120
characters; a longer overview renders as its first 120 characters followed
by the three-character ellipsis (123 characters in total). -/
theorem c8_truncation (overview : String) :
    (overview.length ≤ 120 → truncate_overview overview = overview)
    ∧ (overview.length > 120 →
        (truncate_overview overview).length = 123
        ∧ (truncate_overview overview).data =
            overview.data.take 120 ++ ('.' :: '.' :: '.' :: [])) := by
  constructor
  · intro h
    simp [truncate_overview, Nat.not_lt.mpr h]
  · intro h
    have hdata : (truncate_overview overview).data =
        overview.data.take 120 ++ ('.' :: '.' :: '.' :: []) := by
      simp only [truncate_overview, if_pos h]
      rfl
    refine ⟨?_, hdata⟩
    have hlen : (truncate_overview overview).length = (truncate_overview overview).data.length :=
      rfl
    have hlen2 : overview.length = overview.data.length := rfl
    rw [hlen, hdata]
    simp only [List.length_append, List.length_take, List.length_cons, List.length_nil]
    omega

/-- C9: "load more" appends the next page's results to the accumulated
list (the old list is a prefix, never truncated — unchanged when the new
page is empty) and increments the page counter; only a new search replaces
the list, resetting to page 1 with page-1 results. -/
theorem c9_load_more (fetch : Int → List Json) (st : SearchState) :
    (load_more fetch st).movies = st.movies ++ fetch (st.page + 1)
    ∧ (load_more fetch st).page = st.page + 1
    ∧ (∃ t, (load_more fetch st).movies = st.movies ++ t)
    ∧ (fetch (st.page + 1) = [] → (load_more fetch st).movies = st.movies)
    ∧ (run_search fetch).page = 1
    ∧ (run_search fetch).movies = fetch 1 := by
  refine ⟨rfl, rfl, ⟨fetch (st.page + 1), rfl⟩, ?_, rfl, rfl⟩
  intro h
  simp [load_more, h]

theorem discoverParams_some (api_key : String) (genre_id : Int) (min_rating : DecNum)
    (y : Int) (page : Int) :
    discoverParams api_key genre_id min_rating (some y) page =
      if y = 0 then discoverParams api_key genre_id min_rating none page
      else discoverParams api_key genre_id min_rating none page
        ++ [("primary_release_year", PVal.pint y)] := rfl

/-- C7: every call of `discover_movies` issues exactly one request, to the
discover endpoint, carrying the API key, the `ja` locale, the genre, the
inclusive minimum rating, `sort_by=popularity.desc` and the page number;
`primary_release_year` equals the year argument exactly when a year is
given (truthy: non-None and non-zero) and is absent otherwise; the result
is the response's `results` field. -/
theorem c7_discover_request (http : Request → Json) (api_key : String) (genre_id : Int)
    (min_rating : DecNum) (year : Option Int) (page : Int) :
    (discover_movies http api_key genre_id min_rating year page).1.length = 1
    ∧ ∀ req ∈ (discover_movies http api_key genre_id min_rating year page).1,
        req.url = "https://api.themoviedb.org/3/discover/movie"
        ∧ List.lookup "api_key" req.params = some (PVal.pstr api_key)
        ∧ List.lookup "language" req.params = some (PVal.pstr "ja")
        ∧ List.lookup "with_genres" req.params = some (PVal.pint genre_id)
        ∧ List.lookup "vote_average.gte" req.params = some (PVal.pdec min_rating)
        ∧ List.lookup "sort_by" req.params = some (PVal.pstr "popularity.desc")
        ∧ List.lookup "page" req.params = some (PVal.pint page)
        ∧ List.lookup "primary_release_year" req.params =
            (match year with
             | none => none
             | some y => if y = 0 then none else some (PVal.pint y))
        ∧ (discover_movies http api_key genre_id min_rating year page).2 =
            jsonField (http req) "results" := by
  refine ⟨rfl, ?_⟩
  intro req hreq
  have hre : req = Request.mk ("https://api.themoviedb.org/3" ++ "/discover/movie")
      (discoverParams api_key genre_id min_rating year page) := by
    simpa [discover_movies] using hreq
  subst hre
  refine ⟨rfl, ?_, ?_, ?_, ?_, ?_, ?_, ?_, rfl⟩
  all_goals
    rcases year with _ | y
    · rfl
    · rw [discoverParams_some]
      by_cases hy : y = 0
      · subst hy
        rfl
      · simp only [if_neg hy]
        rfl

/-- C10: the `primary_release_year` parameter is attached only when the
year argument is truthy; both `None` and `0` (the value the UI produces
for the digit input `"0"`) yield a request with no year parameter, while
any non-zero year is forwarded unchanged. -/
theorem c10_year_truthiness (api_key : String) (genre_id : Int) (min_rating : DecNum)
    (page : Int) (y : Int) :
    parse_year "0" = Except.ok (some 0)
    ∧ List.lookup "primary_release_year"
        (discoverParams api_key genre_id min_rating (some 0) page) = none
    ∧ List.lookup "primary_release_year"
        (discoverParams api_key genre_id min_rating none page) = none
    ∧ (y ≠ 0 → List.lookup "primary_release_year"
        (discoverParams api_key genre_id min_rating (some y) page) = some (PVal.pint y)) := by
  refine ⟨rfl, rfl, rfl, ?_⟩
  intro hy
  rw [discoverParams_some]
  simp only [if_neg hy]
  rfl

/-! ## Witnesses: the claim theorems applied at concrete inputs -/

theorem c1_witness :
    add_favorite sampleMovie (add_favorite sampleMovie sampleFavs).1 =
      ((add_favorite sampleMovie sampleFavs).1, false)
    ∧ add_favorite sampleMovie sampleFavs = (sampleFavs, false)
    ∧ (favIds (add_favorite sampleMovie sampleFavs).1).count sampleMovie.id = 1
    ∧ (add_favorite sampleMovie sampleFavs).1.length = sampleFavs.length := by
  have h := c1_add_idempotent sampleMovie sampleFavs (by decide)
  have hex : ∃ f ∈ sampleFavs, f.id = sampleMovie.id := ⟨sampleFav, by decide, by decide⟩
  exact ⟨h.1, h.2.1 hex, h.2.2.1, h.2.2.2 hex⟩

theorem c2_witness :
    uniqueIds (add_favorite sampleMovie2 sampleFavs).1
    ∧ uniqueIds (remove_favorite 7 sampleFavs).1
    ∧ (fav_record_of sampleMovie2).id = sampleMovie2.id
    ∧ (fav_record_of sampleMovie2).title = sampleMovie2.title
    ∧ (fav_record_of sampleMovie2).poster_path = sampleMovie2.poster_path
    ∧ (fav_record_of sampleMovie2).vote_average = sampleMovie2.vote_average
    ∧ (fav_record_of sampleMovie2).release_date = sampleMovie2.release_date.getD "" := by
  have h := c2_store_invariant sampleMovie2 7 sampleFavs (by decide)
  have hf := h.2.2 (fav_record_of sampleMovie2) (by decide) (by decide)
  exact ⟨h.1, h.2.1, hf.1, hf.2.1, hf.2.2.1, hf.2.2.2.1, hf.2.2.2.2⟩

theorem c3_witness :
    load_favorites (some (save_favorites sampleFavs)) = Except.ok (encodeFavs sampleFavs)
    ∧ decodeFavs (encodeFavs sampleFavs) = some sampleFavs := by
  have hwf : ∀ r ∈ sampleFavs, RecordWf r := by
    intro r hr
    simp only [sampleFavs, List.mem_cons, List.not_mem_nil, or_false] at hr
    rcases hr with rfl | rfl
    · intro d hd
      simp only [sampleFav] at hd
      injection hd with h
      subst h
      exact ⟨by decide, by decide⟩
    · intro d hd
      simp [sampleFav2] at hd
  exact c3_save_load_roundtrip sampleFavs hwf

theorem c4_witness :
    (remove_favorite 7 sampleFavs).1 = sampleFavs.filter (fun f => f.id != 7)
    ∧ (remove_favorite 7 sampleFavs).2 = true
    ∧ List.Sublist (remove_favorite 7 sampleFavs).1 sampleFavs
    ∧ (sampleFav ∈ (remove_favorite 7 sampleFavs).1 ↔ sampleFav ∈ sampleFavs ∧ sampleFav.id ≠ 7)
    ∧ (remove_favorite 99 sampleFavs).1 = sampleFavs
    ∧ (remove_favorite 7 sampleFavs).1.count sampleFav2 = sampleFavs.count sampleFav2
    ∧ sampleFav ∉ (remove_favorite 7 sampleFavs).1 := by
  have h7 := c4_remove_semantics 7 sampleFavs
  have h99 := c4_remove_semantics 99 sampleFavs
  exact ⟨h7.1, h7.2.1, h7.2.2.1, h7.2.2.2.1 sampleFav, h99.2.2.2.2.1 (by decide),
    h7.2.2.2.2.2.1 sampleFav2 (by decide), h7.2.2.2.2.2.2 sampleFav (by decide)⟩

theorem c6_witness :
    load_favorites none = Except.ok (Json.jarr [])
    ∧ load_favorites (some ('[' :: ']' :: [])) = Except.ok (Json.jarr [])
    ∧ load_favorites (some (lbraceC :: [])) = Except.error StorageError.jsonDecodeError
    ∧ load_favorites (some ('n' :: 'o' :: [])) = Except.error StorageError.jsonDecodeError
    ∧ load_favorites (some ('n' :: 'u' :: 'l' :: 'l' :: [])) = Except.ok Json.jnull := by
  have h := c6_load_boundary ('n' :: 'u' :: 'l' :: 'l' :: []) Json.jnull []
  exact ⟨h.1, h.2.2.2.1, h.2.2.2.2.1, h.2.2.2.2.2, h.2.1 rfl rfl⟩

theorem c7_witness :
    (discover_movies (fun _ => Json.jnull) "k" 28 ⟨false, 8, [0]⟩ (some 2023) 1).1.length = 1
    ∧ List.lookup "sort_by" (discoverParams "k" 28 ⟨false, 8, [0]⟩ (some 2023) 1) =
        some (PVal.pstr "popularity.desc")
    ∧ List.lookup "primary_release_year" (discoverParams "k" 28 ⟨false, 8, [0]⟩ (some 2023) 1) =
        some (PVal.pint 2023) := by
  have h := c7_discover_request (fun _ => Json.jnull) "k" 28 ⟨false, 8, [0]⟩ (some 2023) 1
  have hm := h.2 (Request.mk ("https://api.themoviedb.org/3" ++ "/discover/movie")
    (discoverParams "k" 28 ⟨false, 8, [0]⟩ (some 2023) 1)) (by decide)
  exact ⟨h.1, hm.2.2.2.2.2.1, hm.2.2.2.2.2.2.2.1⟩

theorem c8_witness :
    truncate_overview (String.mk (List.replicate 100 'a')) = String.mk (List.replicate 100 'a')
    ∧ (truncate_overview (String.mk (List.replicate 130 'a'))).length = 123
    ∧ (truncate_overview (String.mk (List.replicate 130 'a'))).data =
        (String.mk (List.replicate 130 'a')).data.take 120 ++ ('.' :: '.' :: '.' :: []) := by
  have h1 := c8_truncation (String.mk (List.replicate 100 'a'))
  have h2 := c8_truncation (String.mk (List.replicate 130 'a'))
  exact ⟨h1.1 (by decide), (h2.2 (by decide)).1, (h2.2 (by decide)).2⟩

theorem c9_witness :
    (load_more (fun _ => []) (SearchState.mk 1 [Json.jnull])).movies = [Json.jnull]
    ∧ (load_more (fun _ => []) (SearchState.mk 1 [Json.jnull])).page = 2
    ∧ (run_search (fun _ => [])).page = 1 := by
  have h := c9_load_more (fun _ => []) (SearchState.mk 1 [Json.jnull])
  exact ⟨h.2.2.2.1 rfl, h.2.1, h.2.2.2.2.1⟩

theorem c10_witness :
    parse_year "0" = Except.ok (some 0)
    ∧ List.lookup "primary_release_year" (discoverParams "k" 28 ⟨false, 8, [0]⟩ (some 0) 1) = none
    ∧ List.lookup "primary_release_year" (discoverParams "k" 28 ⟨false, 8, [0]⟩ none 1) = none
    ∧ List.lookup "primary_release_year" (discoverParams "k" 28 ⟨false, 8, [0]⟩ (some 2023) 1) =
        some (PVal.pint 2023) := by
  have h := c10_year_truthiness "k" 28 ⟨false, 8, [0]⟩ 1 2023
  exact ⟨h.1, h.2.1, h.2.2.1, h.2.2.2 (by decide)⟩
